import Mathlib

/-!
Verification development for the PVR GUI directory provider
(`xbmc/pvr/filesystem/PVRGUIDirectory.cpp`).

The C++ code is shallowly embedded: pure helper functions become Lean
functions, the directory builders become functions from an explicit
environment (the backend collection snapshots) to the produced listing,
and the boolean success/failure return plus the `CFileItemList` output
parameter become a `Bool × List _` result.

String handling is done over `List Char` with structural recursion so
that all definitions are executable and kernel-reducible.
-/

/-- Lowercase a string character by character. Models the case-insensitive
comparisons performed by `StringUtils` (external helper library). -/
def lowerStr (s : String) : String := ⟨s.data.map Char.toLower⟩

/-- Test whether the list `s` starts with the list `p`. -/
def charsStart : List Char → List Char → Bool
  | _, [] => true
  | [], _ :: _ => false
  | a :: s, b :: p => a == b && charsStart s p

/-- Modelled from the spec: `StringUtils::StartsWith` (not under src/),
plain case-sensitive string prefix test. -/
def StringUtils.StartsWith (s p : String) : Bool := charsStart s.data p.data

/-- Modelled from the spec: `StringUtils::StartsWithNoCase` (not under src/),
case-insensitive string prefix test. -/
def StringUtils.StartsWithNoCase (s p : String) : Bool :=
  StringUtils.StartsWith (lowerStr s) (lowerStr p)

/-- Modelled from the spec: `StringUtils::EqualsNoCase` (not under src/),
case-insensitive string equality. -/
def StringUtils.EqualsNoCase (a b : String) : Bool := lowerStr a == lowerStr b

/-- Modelled from the spec: `URIUtils::RemoveSlashAtEnd` (not under src/),
removes trailing slash characters ("trim trailing slashes"). -/
def URIUtils.RemoveSlashAtEnd (s : String) : String :=
  ⟨(s.data.reverse.dropWhile (· == '/')).reverse⟩

/-- Translation of `TrimSlashes` (PVRGUIDirectory.cpp, unnamed namespace):
drop leading slash characters, then remove trailing slashes. -/
def TrimSlashes (s : String) : String :=
  URIUtils.RemoveSlashAtEnd ⟨s.data.dropWhile (· == '/')⟩

/-- Translation of `IsDirectoryMember` (PVRGUIDirectory.cpp): trim slashes
from both directories, then compare exactly (grouped) or by prefix (flat),
case-insensitively. -/
def IsDirectoryMember (strDirectory strEntryDirectory : String) (bGrouped : Bool) : Bool :=
  let strUseDirectory := TrimSlashes strDirectory
  let strUseEntryDirectory := TrimSlashes strEntryDirectory
  if bGrouped then StringUtils.EqualsNoCase strUseDirectory strUseEntryDirectory
  else StringUtils.StartsWithNoCase strUseEntryDirectory strUseDirectory

/-- Claim C2. For all directory strings `d` and `e`, grouped membership holds
iff the slash-trimmed strings are equal case-insensitively, and flat
membership holds iff the trimmed entry directory starts case-insensitively
with the trimmed target directory; in particular for target "A/B", entry
"a/b/c" is a flat member but not a grouped member, and entry "a/b" is a
member in both modes. -/
theorem pvr_C2_directory_membership (d e : String) :
    (IsDirectoryMember d e true = true ↔
      lowerStr (TrimSlashes d) = lowerStr (TrimSlashes e)) ∧
    (IsDirectoryMember d e false = true ↔
      StringUtils.StartsWith (lowerStr (TrimSlashes e)) (lowerStr (TrimSlashes d)) = true) ∧
    IsDirectoryMember "A/B" "a/b/c" false = true ∧
    IsDirectoryMember "A/B" "a/b/c" true = false ∧
    IsDirectoryMember "A/B" "a/b" true = true ∧
    IsDirectoryMember "A/B" "a/b" false = true := by
  refine ⟨?_, ?_, by decide, by decide, by decide, by decide⟩
  · simp [IsDirectoryMember, StringUtils.EqualsNoCase]
  · simp [IsDirectoryMember, StringUtils.StartsWithNoCase]

/-- Witness for claim C2 at the concrete inputs named by the spec. -/
theorem pvr_C2_directory_membership_witness :
    IsDirectoryMember "A/B" "a/b/c" false = true :=
  (pvr_C2_directory_membership "A/B" "a/b/c").2.2.1

/-- Invalid PVR client id (`PVR_CLIENT_INVALID_UID`, pvr/PVRConstants.h). -/
def PVR_CLIENT_INVALID_UID : Int := -1

/-- Invalid PVR provider id (`PVR_PROVIDER_INVALID_UID`). -/
def PVR_PROVIDER_INVALID_UID : Int := -1

/-- Timer marker for "any channel" (`PVR_TIMER_ANY_CHANNEL`). -/
def PVR_TIMER_ANY_CHANNEL : Int := -1

/-- Unknown channel group id (`PVR_GROUP_ID_UNNKOWN`, sic). -/
def PVR_GROUP_ID_UNNKOWN : Int := -1

/-- Translation of the `CByClientAndProviderFilter` template class
(PVRGUIDirectory.cpp): an optional client id / provider id filter parsed
from the request URL. The constructor's URL parsing (`UTILS::GetClientAndProviderFromPath`,
not under src/) is abstracted into the three stored fields. -/
structure CByClientAndProviderFilter where
  applyFilter : Bool
  clientId : Int
  providerId : Int
deriving DecidableEq

/-- Translation of `CByClientAndProviderFilter::Filter`: returns `true` when
the item (given by its client id and client provider uid) must be skipped. -/
def CByClientAndProviderFilter.Filter (f : CByClientAndProviderFilter)
    (itemClientID itemClientProviderUid : Int) : Bool :=
  if f.applyFilter then
    if itemClientID != f.clientId then true
    else if f.providerId != PVR_PROVIDER_INVALID_UID &&
            itemClientProviderUid != f.providerId then true
    else false
  else false

/-- Modelled from the spec: the parts of `CURL` (external) consumed by
`CPVRGUIDirectory::Exists` — the URL protocol and its file name. -/
structure CURLModel where
  protocol : String
  fileName : String
deriving DecidableEq

/-- Translation of `CPVRGUIDirectory::Exists` (PVRGUIDirectory.cpp:59):
false when the PVR manager is not started, else true iff the URL protocol
is "pvr" and the file name starts with "recordings". `CURL::IsProtocol`
(external) performs a case-insensitive comparison. -/
def CPVRGUIDirectory.Exists (started : Bool) (url : CURLModel) : Bool :=
  if !started then false
  else StringUtils.EqualsNoCase url.protocol "pvr" &&
       StringUtils.StartsWith url.fileName "recordings"

/-- Claim C10. `Exists()` returns true iff the PVR manager is started, the
URL protocol is "pvr" and the URL file name starts with "recordings";
consequently it is false for channels, guide, timers, providers and
saved-search paths even while the manager is started. -/
theorem pvr_C10_exists_only_recordings :
    (∀ (started : Bool) (url : CURLModel),
      CPVRGUIDirectory.Exists started url = true ↔
        (started = true ∧ StringUtils.EqualsNoCase url.protocol "pvr" = true ∧
         StringUtils.StartsWith url.fileName "recordings" = true)) ∧
    CPVRGUIDirectory.Exists true ⟨"pvr", "channels/tv/Group/1"⟩ = false ∧
    CPVRGUIDirectory.Exists true ⟨"pvr", "guide/tv/"⟩ = false ∧
    CPVRGUIDirectory.Exists true ⟨"pvr", "timers/tv/-1/-1"⟩ = false ∧
    CPVRGUIDirectory.Exists true ⟨"pvr", "providers/tv/"⟩ = false ∧
    CPVRGUIDirectory.Exists true ⟨"pvr", "search/tv/savedsearches/1"⟩ = false := by
  refine ⟨?_, by decide, by decide, by decide, by decide, by decide⟩
  intro started url
  cases started <;> simp [CPVRGUIDirectory.Exists]

/-- Witness for claim C10: a concrete recordings URL for which `Exists`
returns true, obtained through the iff direction of the theorem. -/
theorem pvr_C10_exists_only_recordings_witness :
    CPVRGUIDirectory.Exists true ⟨"pvr", "recordings/active/"⟩ = true :=
  (pvr_C10_exists_only_recordings.1 true ⟨"pvr", "recordings/active/"⟩).mpr
    ⟨rfl, by decide, by decide⟩

/-- Translation of the fields of `CPVRTimerInfoTag` (external entity class)
read by the timers directory builders. -/
structure CPVRTimerInfoTag where
  isRadio : Bool
  clientChannelUID : Int
  isTimerRule : Bool
  isDisabled : Bool
  hasParent : Bool
  parentClientIndex : Int
  clientID : Int
  clientIndex : Int
deriving DecidableEq

/-- One produced timers listing row: the timer plus the client id and
per-client index encoded into the item's path
(`CPVRTimersPath(path, clientId, clientIndex)`). -/
structure TimerEntry where
  timer : CPVRTimerInfoTag
  pathClientId : Int
  pathClientIndex : Int
deriving DecidableEq

/-- Translation of `GetTimersRootDirectory` (PVRGUIDirectory.cpp:907):
lists timers (or timer rules) matching the radio/tv kind, where in the
rules view a rule targeting "any channel" matches regardless of kind,
optionally hiding disabled timers. -/
def GetTimersRootDirectory (bRadio bRules bHideDisabled : Bool)
    (timers : List CPVRTimerInfoTag) : List TimerEntry :=
  timers.filterMap (fun timer =>
    if (bRadio == timer.isRadio ||
        (bRules && timer.clientChannelUID == PVR_TIMER_ANY_CHANNEL)) &&
       (bRules == timer.isTimerRule) && (!bHideDisabled || !timer.isDisabled) then
      some ⟨timer, timer.clientID, timer.clientIndex⟩
    else none)

/-- Translation of `GetTimersSubDirectory` (PVRGUIDirectory.cpp:930):
lists the timers spawned by one timer rule, matching radio/tv kind,
parent rule id, optional client constraint, optionally hiding disabled. -/
def GetTimersSubDirectory (bRadio : Bool) (iParentId iClientId : Int)
    (bHideDisabled : Bool) (timers : List CPVRTimerInfoTag) : List TimerEntry :=
  timers.filterMap (fun timer =>
    if (timer.isRadio == bRadio) && timer.hasParent &&
       (iClientId == PVR_CLIENT_INVALID_UID || timer.clientID == iClientId) &&
       (timer.parentClientIndex == iParentId) && (!bHideDisabled || !timer.isDisabled) then
      some ⟨timer, timer.clientID, timer.clientIndex⟩
    else none)

/-- Modelled from the spec: the parsed form of `CPVRTimersPath` (not under
src/) — validity, radio/tv kind, rules flag, whether the path is the timers
root or one timer rule's sub-directory, and the client/parent ids. -/
structure CPVRTimersPath where
  valid : Bool
  radio : Bool
  rules : Bool
  timersRoot : Bool
  timerRule : Bool
  clientId : Int
  parentId : Int
deriving DecidableEq

/-- Dispatch part of `CPVRGUIDirectory::GetTimersDirectory`: root listing or
one rule's sub-listing. -/
def timersDispatch (path : CPVRTimersPath) (bHideDisabled : Bool)
    (timers : List CPVRTimerInfoTag) : Bool × List TimerEntry :=
  if path.timersRoot then
    (true, GetTimersRootDirectory path.radio path.rules bHideDisabled timers)
  else if path.timerRule then
    (true, GetTimersSubDirectory path.radio path.parentId path.clientId bHideDisabled timers)
  else (false, [])

/-- Translation of `CPVRGUIDirectory::GetTimersDirectory`
(PVRGUIDirectory.cpp:958): validates the path, resolves the "view" query
option (only "hidedisabled" is supported; any other value fails the call;
absent option falls back to the configured default), then dispatches. The
`Bool` result is the C++ return value and the list is the content of the
`results` output parameter. -/
def CPVRGUIDirectory.GetTimersDirectory (view : Option String)
    (settingHideDisabled : Bool) (path : CPVRTimersPath)
    (timers : List CPVRTimerInfoTag) : Bool × List TimerEntry :=
  if path.valid && (path.timersRoot || path.timerRule) then
    match view with
    | some v =>
        if v = "hidedisabled" then timersDispatch path true timers
        else (false, [])
    | none => timersDispatch path settingHideDisabled timers
  else (false, [])

/-- Claim C8. Timers root listing: an entry is listed iff its timer matches
the requested rules/instances selection and the requested radio/tv kind,
except that in the rules view a rule targeting "any channel" also matches;
with hidedisabled in effect, disabled timers are excluded. Sub-directory
listing for a rule: an entry is listed iff its timer has a parent whose
recorded parent id matches the rule's id, the client matches when the path
constrains it, the radio/tv kind matches, and it is not hidden as disabled. -/
theorem pvr_C8_timers_listing :
    (∀ (bRadio bRules bHideDisabled : Bool) (timers : List CPVRTimerInfoTag)
       (e : TimerEntry),
      e ∈ GetTimersRootDirectory bRadio bRules bHideDisabled timers ↔
        ∃ t ∈ timers,
          ((t.isRadio = bRadio ∨ (bRules = true ∧ t.clientChannelUID = PVR_TIMER_ANY_CHANNEL)) ∧
           t.isTimerRule = bRules ∧
           (bHideDisabled = true → t.isDisabled = false)) ∧
          e = ⟨t, t.clientID, t.clientIndex⟩) ∧
    (∀ (bRadio : Bool) (iParentId iClientId : Int) (bHideDisabled : Bool)
       (timers : List CPVRTimerInfoTag) (e : TimerEntry),
      e ∈ GetTimersSubDirectory bRadio iParentId iClientId bHideDisabled timers ↔
        ∃ t ∈ timers,
          (t.isRadio = bRadio ∧ t.hasParent = true ∧
           (iClientId = PVR_CLIENT_INVALID_UID ∨ t.clientID = iClientId) ∧
           t.parentClientIndex = iParentId ∧
           (bHideDisabled = true → t.isDisabled = false)) ∧
          e = ⟨t, t.clientID, t.clientIndex⟩) := by
  constructor
  · intro bRadio bRules bHideDisabled timers e
    simp only [GetTimersRootDirectory, List.mem_filterMap,
      Option.ite_none_right_eq_some, Option.some.injEq, Bool.and_eq_true,
      Bool.or_eq_true, beq_iff_eq, Bool.not_eq_true']
    constructor
    · rintro ⟨t, ht, ⟨⟨h1, h2⟩, h3⟩, he⟩
      refine ⟨t, ht, ⟨?_, h2.symm, ?_⟩, he.symm⟩
      · rcases h1 with h | ⟨hb, hc⟩
        · exact Or.inl h.symm
        · exact Or.inr ⟨hb, hc⟩
      · intro hh
        rcases h3 with h | h
        · simp [hh] at h
        · exact h
    · rintro ⟨t, ht, ⟨h1, h2, h3⟩, he⟩
      refine ⟨t, ht, ⟨⟨?_, h2.symm⟩, ?_⟩, he.symm⟩
      · rcases h1 with h | ⟨hb, hc⟩
        · exact Or.inl h.symm
        · exact Or.inr ⟨hb, hc⟩
      · cases hd : bHideDisabled
        · exact Or.inl rfl
        · exact Or.inr (h3 hd)
  · intro bRadio iParentId iClientId bHideDisabled timers e
    simp only [GetTimersSubDirectory, List.mem_filterMap,
      Option.ite_none_right_eq_some, Option.some.injEq, Bool.and_eq_true,
      Bool.or_eq_true, beq_iff_eq, Bool.not_eq_true']
    constructor
    · rintro ⟨t, ht, ⟨⟨⟨⟨h1, h2⟩, h3⟩, h4⟩, h5⟩, he⟩
      refine ⟨t, ht, ⟨h1, h2, ?_, h4, ?_⟩, he.symm⟩
      · rcases h3 with h | h
        · exact Or.inl h
        · exact Or.inr h
      · intro hh
        rcases h5 with h | h
        · simp [hh] at h
        · exact h
    · rintro ⟨t, ht, ⟨h1, h2, h3, h4, h5⟩, he⟩
      refine ⟨t, ht, ⟨⟨⟨⟨h1, h2⟩, ?_⟩, h4⟩, ?_⟩, he.symm⟩
      · rcases h3 with h | h
        · exact Or.inl h
        · exact Or.inr h
      · cases hd : bHideDisabled
        · exact Or.inl rfl
        · exact Or.inr (h5 hd)

/-- Witness for claim C8: a concrete enabled TV timer instance is listed in
the timers root with hidedisabled in effect. -/
theorem pvr_C8_timers_listing_witness :
    (⟨⟨false, 7, false, false, false, 0, 3, 11⟩, 3, 11⟩ : TimerEntry) ∈
      GetTimersRootDirectory false false true
        [⟨false, 7, false, false, false, 0, 3, 11⟩] :=
  (pvr_C8_timers_listing.1 false false true
      [⟨false, 7, false, false, false, 0, 3, 11⟩] _).mpr
    ⟨⟨false, 7, false, false, false, 0, 3, 11⟩, List.mem_singleton.mpr rfl,
     ⟨Or.inl rfl, rfl, fun _ => rfl⟩, rfl⟩

/-- Translation of the fields of `CPVRRecording` (external entity class)
read by the recordings directory builders. `localResumePartWay` models
`GetLocalResumePoint().IsPartWay()` (the locally cached resume point used
by the synchronous listing), `backendResumePartWay` models
`GetResumePoint().IsPartWay()` (the possibly backend-involving check used
by the asynchronous refresh job). -/
structure CPVRRecording where
  clientID : Int
  clientProviderUid : Int
  isDeleted : Bool
  isRadio : Bool
  directory : String
  playCount : Nat
  localResumePartWay : Bool
  backendResumePartWay : Bool
  recordingTime : Nat
  sizeInBytes : Nat
deriving DecidableEq

/-- Modelled from the spec: the parsed form of `CPVRRecordingsPath` (not
under src/) — validity, radio/tv kind, deleted/active flag and the
unescaped directory path below the namespace root. -/
structure CPVRRecordingsPath where
  valid : Bool
  radio : Bool
  deleted : Bool
  directory : String
deriving DecidableEq

/-- Modelled from the spec: `CPVRRecordingsPath::GetUnescapedSubDirectoryPath`
(not under src/) — the immediate sub-directory segment of a recording's
directory relative to the current path, matched case-insensitively; empty
when the recording does not lie strictly below the current path. -/
def GetUnescapedSubDirectoryPath (parentDir recDir : String) : String :=
  let parent := TrimSlashes parentDir
  let d := TrimSlashes recDir
  if parent.data.isEmpty then
    ⟨d.data.takeWhile (· != '/')⟩
  else if StringUtils.StartsWithNoCase d ⟨parent.data ++ ['/']⟩ then
    ⟨((d.data.drop (parent.data.length + 1)).dropWhile (· == '/')).takeWhile (· != '/')⟩
  else ""

/-- Path of a synthetic sub-directory folder: the parent directory with the
segment appended (`CPVRRecordingsPath::AppendSegment` + `AsString`, not
under src/, modelled by the directory part of the resulting path; the
namespace part is constant within one listing). -/
def childPath (parentDir seg : String) : String :=
  if parentDir = "" then seg else parentDir ++ "/" ++ seg

/-- One synthetic recordings folder entry with its aggregate counters
(`totalepisodes`, `watchedepisodes`, `unwatchedepisodes`,
`inprogressepisodes`, size) and icon overlay state
(`overlayWatched = true` models `ICON_OVERLAY_WATCHED`). -/
structure FolderItem where
  path : String
  label : String
  dateTime : Nat
  totalepisodes : Nat
  watchedepisodes : Nat
  unwatchedepisodes : Nat
  inprogressepisodes : Nat
  sizeInBytes : Nat
  overlayWatched : Bool
deriving DecidableEq

/-- New folder item as created on the first matching recording
(PVRGUIDirectory.cpp:430): all counters zero, watched overlay assumed. -/
def newFolder (p seg : String) (r : CPVRRecording) : FolderItem :=
  { path := p, label := seg, dateTime := r.recordingTime,
    totalepisodes := 0, watchedepisodes := 0, unwatchedepisodes := 0,
    inprogressepisodes := 0, sizeInBytes := 0, overlayWatched := true }

/-- Counter increments applied for one matching recording
(PVRGUIDirectory.cpp:452-468). -/
def bumpFolder (it : FolderItem) (r : CPVRRecording) : FolderItem :=
  { it with
    totalepisodes := it.totalepisodes + 1,
    unwatchedepisodes := it.unwatchedepisodes + (if r.playCount == 0 then 1 else 0),
    watchedepisodes := it.watchedepisodes + (if r.playCount == 0 then 0 else 1),
    inprogressepisodes := it.inprogressepisodes + (if r.localResumePartWay then 1 else 0),
    sizeInBytes := it.sizeInBytes + r.sizeInBytes }

/-- Recording passes the client/provider, deleted and radio filters of the
sub-directory scan (PVRGUIDirectory.cpp:409-416). -/
def matchesSubDir (recPath : CPVRRecordingsPath) (flt : CByClientAndProviderFilter)
    (r : CPVRRecording) : Bool :=
  !(flt.Filter r.clientID r.clientProviderUid) && !r.isDeleted && (r.isRadio == recPath.radio)

/-- Immediate sub-directory segment of a recording relative to the listed
path. -/
def segOf (recPath : CPVRRecordingsPath) (r : CPVRRecording) : String :=
  GetUnescapedSubDirectoryPath recPath.directory r.directory

/-- Accumulator of the sub-directory scan: the folder items produced so far
and the paths of folders containing at least one unwatched recording (the
`unwatchedFolders` set of the source). -/
structure SubDirAcc where
  items : List FolderItem
  unwatched : List String
deriving DecidableEq

/-- Set-style insertion into the unwatched-folders collection
(`std::set::insert` is idempotent). -/
def insertPath (l : List String) (p : String) : List String :=
  if p ∈ l then l else l ++ [p]

/-- Update applied to an already existing folder for one further matching
recording (PVRGUIDirectory.cpp:447-468): keep the most recent recording
time as the folder's date, then apply the counter increments. -/
def updFolder (r : CPVRRecording) (it : FolderItem) : FolderItem :=
  bumpFolder
    { it with dateTime := if it.dateTime < r.recordingTime then r.recordingTime
                          else it.dateTime } r

/-- Update applied across the folder list when the target path already
exists: the (unique) folder with a case-insensitively matching path is
updated, all others are left unchanged. -/
def gUpd (r : CPVRRecording) (p : String) (it : FolderItem) : FolderItem :=
  if StringUtils.EqualsNoCase it.path p then updFolder r it else it

/-- One iteration of the sub-directory scan loop (PVRGUIDirectory.cpp:407-469):
skip recordings failing the filters or not lying strictly below the current
path; otherwise create the folder on first occurrence (deduplicated by
target path, case-insensitively) or update the existing folder's date, and
apply the counter increments. -/
def subDirStep (recPath : CPVRRecordingsPath) (flt : CByClientAndProviderFilter)
    (acc : SubDirAcc) (r : CPVRRecording) : SubDirAcc :=
  if matchesSubDir recPath flt r then
    if segOf recPath r = "" then acc
    else
      match acc.items.find? (fun it =>
          StringUtils.EqualsNoCase it.path
            (childPath recPath.directory (segOf recPath r))) with
      | none =>
          { items := acc.items ++
              [bumpFolder (newFolder (childPath recPath.directory (segOf recPath r))
                 (segOf recPath r) r) r],
            unwatched := if r.playCount == 0 then
                insertPath acc.unwatched (childPath recPath.directory (segOf recPath r))
              else acc.unwatched }
      | some it0 =>
          { items := acc.items.map
              (gUpd r (childPath recPath.directory (segOf recPath r))),
            unwatched := if r.playCount == 0 then insertPath acc.unwatched it0.path
                         else acc.unwatched }
  else acc

/-- Post-pass of the sub-directory scan (PVRGUIDirectory.cpp:481-483):
change the watched overlay to unwatched for folders recorded in the
unwatched-folders set. -/
def overlayFix (unwatched : List String) (it : FolderItem) : FolderItem :=
  if it.path ∈ unwatched then { it with overlayWatched := false } else it

/-- Translation of `GetGetRecordingsSubDirectories` (PVRGUIDirectory.cpp:396):
scan all recordings accumulating one synthetic folder per distinct
(case-insensitive) immediate sub-directory segment, then change the watched
overlay to unwatched for folders containing unwatched entries. The final
size post-pass moves the accumulated byte count to the item's size; the
model keeps it in the `sizeInBytes` field. -/
def GetGetRecordingsSubDirectories (recPath : CPVRRecordingsPath)
    (flt : CByClientAndProviderFilter) (recordings : List CPVRRecording) :
    List FolderItem :=
  let acc := recordings.foldl (subDirStep recPath flt) ⟨[], []⟩
  acc.items.map (overlayFix acc.unwatched)

/-- One row of a recordings listing: a synthetic folder or a leaf recording
with its watched/unwatched overlay. -/
inductive RecDirEntry where
  | folder (it : FolderItem)
  | leaf (r : CPVRRecording) (overlayWatched : Bool)
deriving DecidableEq

/-- Translation of `CPVRGUIDirectory::GetRecordingsDirectory`
(PVRGUIDirectory.cpp:599): resolve the "view" query option (only "grouped"
and "flat" are supported; any other value fails the call before anything is
listed; absent option falls back to the configured grouping default), then,
for a valid path, produce the synthetic folders (active grouped view only)
followed by the leaf recordings of the directory. The `Bool` result is the
C++ return value and the list is the content of the `results` output
parameter. The asynchronous count-refresh job enqueued on nonempty folder
results is modelled separately (`CPVRRecordingFoldersInProgressEpisodesCountJob.DoWork`). -/
def CPVRGUIDirectory.GetRecordingsDirectory (view : Option String)
    (settingGroupRecordings : Bool) (flt : CByClientAndProviderFilter)
    (recPath : CPVRRecordingsPath) (recordings : List CPVRRecording) :
    Bool × List RecDirEntry :=
  let viewParsed : Option Bool :=
    match view with
    | some v => if v = "grouped" then some true
                else if v = "flat" then some false
                else none
    | none => some settingGroupRecordings
  match viewParsed with
  | none => (false, [])
  | some bGrouped =>
    if recPath.valid then
      let strDirectory := recPath.directory
      let folders := if !recPath.deleted && bGrouped then
                       GetGetRecordingsSubDirectories recPath flt recordings
                     else []
      let leaves := recordings.filterMap (fun r =>
        if flt.Filter r.clientID r.clientProviderUid then none
        else if r.isDeleted != recPath.deleted || r.isRadio != recPath.radio ||
                !(IsDirectoryMember strDirectory r.directory bGrouped) then none
        else some (RecDirEntry.leaf r (r.playCount != 0)))
      (true, folders.map RecDirEntry.folder ++ leaves)
    else (false, [])

/-- Claim C5. A recordings listing whose URL carries a "view" option with a
value other than "grouped"/"flat", and a timers listing whose "view" value
is not "hidedisabled", fail and produce no listing entries. -/
theorem pvr_C5_unsupported_view_fails :
    (∀ (v : String) (settingGroupRecordings : Bool)
       (flt : CByClientAndProviderFilter) (recPath : CPVRRecordingsPath)
       (recordings : List CPVRRecording),
      v ≠ "grouped" → v ≠ "flat" →
      CPVRGUIDirectory.GetRecordingsDirectory (some v) settingGroupRecordings
        flt recPath recordings = (false, [])) ∧
    (∀ (v : String) (settingHideDisabled : Bool) (path : CPVRTimersPath)
       (timers : List CPVRTimerInfoTag),
      v ≠ "hidedisabled" →
      CPVRGUIDirectory.GetTimersDirectory (some v) settingHideDisabled
        path timers = (false, [])) := by
  constructor
  · intro v s flt recPath recordings h1 h2
    simp [CPVRGUIDirectory.GetRecordingsDirectory, h1, h2]
  · intro v s path timers hv
    unfold CPVRGUIDirectory.GetTimersDirectory
    split
    · simp [hv]
    · rfl

/-- Witness for claim C5: the concrete unsupported value "bogus" fails both
the recordings and the timers listing at concrete inputs. -/
theorem pvr_C5_unsupported_view_fails_witness :
    CPVRGUIDirectory.GetRecordingsDirectory (some "bogus") true
      ⟨false, -1, -1⟩ ⟨true, false, false, ""⟩ [] = (false, []) ∧
    CPVRGUIDirectory.GetTimersDirectory (some "bogus") true
      ⟨true, false, false, true, false, -1, -1⟩ [] = (false, []) :=
  ⟨pvr_C5_unsupported_view_fails.1 "bogus" true ⟨false, -1, -1⟩
      ⟨true, false, false, ""⟩ [] (by decide) (by decide),
   pvr_C5_unsupported_view_fails.2 "bogus" true
      ⟨true, false, false, true, false, -1, -1⟩ [] (by decide)⟩

/-- Case-insensitive dedup key of a folder item: its lowercased target
path. -/
def folderKey (it : FolderItem) : String := lowerStr it.path

/-- Dedup key contributed by one recording to the sub-directory scan: the
lowercased target path of the folder it falls into, or `none` when the scan
skips it (filtered out or not strictly below the listed directory). -/
def keyOfRec (recPath : CPVRRecordingsPath) (flt : CByClientAndProviderFilter)
    (r : CPVRRecording) : Option String :=
  if matchesSubDir recPath flt r && segOf recPath r != "" then
    some (lowerStr (childPath recPath.directory (segOf recPath r)))
  else none

/-- Number of recordings of `l` aggregated into the folder with dedup
key `k`. -/
def cntAll (recPath : CPVRRecordingsPath) (flt : CByClientAndProviderFilter)
    (l : List CPVRRecording) (k : String) : Nat :=
  (l.filter (fun r => keyOfRec recPath flt r == some k)).length

/-- Number of unwatched (play count zero) recordings of `l` aggregated into
the folder with dedup key `k`. -/
def cntUnw (recPath : CPVRRecordingsPath) (flt : CByClientAndProviderFilter)
    (l : List CPVRRecording) (k : String) : Nat :=
  (l.filter (fun r => keyOfRec recPath flt r == some k && r.playCount == 0)).length

theorem length_filter_snoc {α : Type} (f : α → Bool) (l : List α) (x : α) :
    ((l ++ [x]).filter f).length = (l.filter f).length + (if f x then 1 else 0) := by
  rw [List.filter_append]
  cases h : f x <;> simp [h, List.filter]

theorem length_filter_pos_iff {α : Type} (f : α → Bool) (l : List α) :
    0 < (l.filter f).length ↔ ∃ x ∈ l, f x = true := by
  rw [List.length_pos_iff_exists_mem]
  constructor
  · rintro ⟨a, ha⟩
    exact ⟨a, (List.mem_filter.mp ha).1, (List.mem_filter.mp ha).2⟩
  · rintro ⟨a, ha, hf⟩
    exact ⟨a, List.mem_filter.mpr ⟨ha, hf⟩⟩

theorem cntAll_snoc (recPath : CPVRRecordingsPath) (flt : CByClientAndProviderFilter)
    (l : List CPVRRecording) (r : CPVRRecording) (k : String) :
    cntAll recPath flt (l ++ [r]) k =
      cntAll recPath flt l k + (if keyOfRec recPath flt r = some k then 1 else 0) := by
  unfold cntAll
  rw [length_filter_snoc]
  congr 1
  by_cases h : keyOfRec recPath flt r = some k <;> simp [h]

theorem cntUnw_snoc (recPath : CPVRRecordingsPath) (flt : CByClientAndProviderFilter)
    (l : List CPVRRecording) (r : CPVRRecording) (k : String) :
    cntUnw recPath flt (l ++ [r]) k =
      cntUnw recPath flt l k +
        (if keyOfRec recPath flt r = some k ∧ r.playCount = 0 then 1 else 0) := by
  unfold cntUnw
  rw [length_filter_snoc]
  congr 1
  by_cases h1 : keyOfRec recPath flt r = some k <;>
    by_cases h2 : r.playCount = 0 <;> simp [h1, h2]

theorem cntAll_pos_iff (recPath : CPVRRecordingsPath) (flt : CByClientAndProviderFilter)
    (l : List CPVRRecording) (k : String) :
    0 < cntAll recPath flt l k ↔ ∃ r ∈ l, keyOfRec recPath flt r = some k := by
  unfold cntAll
  rw [length_filter_pos_iff]
  simp

theorem cntUnw_pos_iff (recPath : CPVRRecordingsPath) (flt : CByClientAndProviderFilter)
    (l : List CPVRRecording) (k : String) :
    0 < cntUnw recPath flt l k ↔
      ∃ r ∈ l, keyOfRec recPath flt r = some k ∧ r.playCount = 0 := by
  unfold cntUnw
  rw [length_filter_pos_iff]
  simp

theorem cntUnw_eq_zero_of_cntAll_eq_zero (recPath : CPVRRecordingsPath)
    (flt : CByClientAndProviderFilter) (l : List CPVRRecording) (k : String)
    (h : cntAll recPath flt l k = 0) : cntUnw recPath flt l k = 0 := by
  by_contra hne
  obtain ⟨r, hr, hk, -⟩ :=
    (cntUnw_pos_iff recPath flt l k).mp (Nat.pos_of_ne_zero hne)
  have : 0 < cntAll recPath flt l k :=
    (cntAll_pos_iff recPath flt l k).mpr ⟨r, hr, hk⟩
  omega

theorem mem_insertPath (l : List String) (p q : String) :
    q ∈ insertPath l p ↔ q ∈ l ∨ q = p := by
  unfold insertPath
  split
  · rename_i h
    constructor
    · exact Or.inl
    · rintro (hq | rfl)
      · exact hq
      · exact h
  · simp

theorem bumpFolder_path (it : FolderItem) (r : CPVRRecording) :
    (bumpFolder it r).path = it.path := rfl

theorem updFolder_path (r : CPVRRecording) (it : FolderItem) :
    (updFolder r it).path = it.path := rfl

theorem updFolder_overlay (r : CPVRRecording) (it : FolderItem) :
    (updFolder r it).overlayWatched = it.overlayWatched := rfl

theorem eqNoCase_true_iff (a b : String) :
    StringUtils.EqualsNoCase a b = true ↔ lowerStr a = lowerStr b := by
  simp [StringUtils.EqualsNoCase]

/-- Invariant of the sub-directory scan loop after processing the prefix
`processed` of the recordings list: folder dedup keys are pairwise distinct,
every folder's counters agree with the recordings processed so far, a
folder is in the unwatched set iff it aggregated an unwatched recording,
every processed recording's key has its folder, and the unwatched set only
holds paths of existing folders. -/
def SubDirInv (recPath : CPVRRecordingsPath) (flt : CByClientAndProviderFilter)
    (processed : List CPVRRecording) (acc : SubDirAcc) : Prop :=
  (acc.items.map folderKey).Nodup ∧
  (∀ it ∈ acc.items,
      it.totalepisodes = cntAll recPath flt processed (folderKey it) ∧
      it.unwatchedepisodes = cntUnw recPath flt processed (folderKey it) ∧
      (it.path ∈ acc.unwatched ↔ 0 < cntUnw recPath flt processed (folderKey it)) ∧
      0 < it.totalepisodes ∧ it.overlayWatched = true) ∧
  (∀ r ∈ processed, ∀ k, keyOfRec recPath flt r = some k →
      ∃ it ∈ acc.items, folderKey it = k) ∧
  (∀ p ∈ acc.unwatched, ∃ it ∈ acc.items, it.path = p)

theorem SubDirInv.snoc_nokey {recPath : CPVRRecordingsPath}
    {flt : CByClientAndProviderFilter} {processed : List CPVRRecording}
    {acc : SubDirAcc} (r : CPVRRecording)
    (hk : keyOfRec recPath flt r = none)
    (h : SubDirInv recPath flt processed acc) :
    SubDirInv recPath flt (processed ++ [r]) acc := by
  obtain ⟨hnd, hitems, hcover, hunw⟩ := h
  have hcnt : ∀ k, cntAll recPath flt (processed ++ [r]) k =
      cntAll recPath flt processed k := by
    intro k
    rw [cntAll_snoc, if_neg (by simp [hk]), Nat.add_zero]
  have hcntU : ∀ k, cntUnw recPath flt (processed ++ [r]) k =
      cntUnw recPath flt processed k := by
    intro k
    rw [cntUnw_snoc, if_neg (by simp [hk]), Nat.add_zero]
  refine ⟨hnd, ?_, ?_, hunw⟩
  · intro it hit
    obtain ⟨h1, h2, h3, h4, h5⟩ := hitems it hit
    exact ⟨by rw [hcnt]; exact h1, by rw [hcntU]; exact h2,
           by rw [hcntU]; exact h3, h4, h5⟩
  · intro r' hr' k hk'
    rcases List.mem_append.mp hr' with h | h
    · exact hcover r' h k hk'
    · rcases List.mem_singleton.mp h with rfl
      rw [hk] at hk'
      cases hk'

theorem folderKey_def (it : FolderItem) : folderKey it = lowerStr it.path := rfl

theorem updFolder_key (r : CPVRRecording) (it : FolderItem) :
    folderKey (updFolder r it) = folderKey it := rfl

theorem updFolder_total (r : CPVRRecording) (it : FolderItem) :
    (updFolder r it).totalepisodes = it.totalepisodes + 1 := rfl

theorem updFolder_unwatched (r : CPVRRecording) (it : FolderItem) :
    (updFolder r it).unwatchedepisodes =
      it.unwatchedepisodes + (if r.playCount == 0 then 1 else 0) := rfl

theorem gUpd_path (r : CPVRRecording) (p : String) (it : FolderItem) :
    (gUpd r p it).path = it.path := by
  unfold gUpd
  split
  · exact updFolder_path r it
  · rfl

theorem gUpd_key (r : CPVRRecording) (p : String) (it : FolderItem) :
    folderKey (gUpd r p it) = folderKey it := by
  rw [folderKey_def, folderKey_def, gUpd_path]

theorem gUpd_of_key_eq {p : String} {it : FolderItem} (r : CPVRRecording)
    (h : folderKey it = lowerStr p) : gUpd r p it = updFolder r it := by
  unfold gUpd
  rw [if_pos ((eqNoCase_true_iff it.path p).mpr h)]

theorem gUpd_of_key_ne {p : String} {it : FolderItem} (r : CPVRRecording)
    (h : folderKey it ≠ lowerStr p) : gUpd r p it = it := by
  unfold gUpd
  rw [if_neg (fun hc => h ((eqNoCase_true_iff it.path p).mp hc))]

theorem subDirStep_no_match {recPath : CPVRRecordingsPath}
    {flt : CByClientAndProviderFilter} {acc : SubDirAcc} {r : CPVRRecording}
    (hm : ¬(matchesSubDir recPath flt r = true)) :
    subDirStep recPath flt acc r = acc := by
  unfold subDirStep
  rw [if_neg hm]

theorem subDirStep_empty_seg {recPath : CPVRRecordingsPath}
    {flt : CByClientAndProviderFilter} {acc : SubDirAcc} {r : CPVRRecording}
    (hs : segOf recPath r = "") :
    subDirStep recPath flt acc r = acc := by
  unfold subDirStep
  split <;> simp [hs]

theorem subDirStep_match_none {recPath : CPVRRecordingsPath}
    {flt : CByClientAndProviderFilter} {acc : SubDirAcc} {r : CPVRRecording}
    (hm : matchesSubDir recPath flt r = true) (hs : ¬(segOf recPath r = ""))
    (hfind : acc.items.find? (fun it =>
        StringUtils.EqualsNoCase it.path
          (childPath recPath.directory (segOf recPath r))) = none) :
    subDirStep recPath flt acc r =
      { items := acc.items ++
          [bumpFolder (newFolder (childPath recPath.directory (segOf recPath r))
             (segOf recPath r) r) r],
        unwatched := if r.playCount == 0 then
            insertPath acc.unwatched (childPath recPath.directory (segOf recPath r))
          else acc.unwatched } := by
  unfold subDirStep
  rw [if_pos hm, if_neg hs, hfind]

theorem subDirStep_match_some {recPath : CPVRRecordingsPath}
    {flt : CByClientAndProviderFilter} {acc : SubDirAcc} {r : CPVRRecording}
    {it0 : FolderItem}
    (hm : matchesSubDir recPath flt r = true) (hs : ¬(segOf recPath r = ""))
    (hfind : acc.items.find? (fun it =>
        StringUtils.EqualsNoCase it.path
          (childPath recPath.directory (segOf recPath r))) = some it0) :
    subDirStep recPath flt acc r =
      { items := acc.items.map (gUpd r (childPath recPath.directory (segOf recPath r))),
        unwatched := if r.playCount == 0 then insertPath acc.unwatched it0.path
          else acc.unwatched } := by
  unfold subDirStep
  rw [if_pos hm, if_neg hs, hfind]

theorem subDirStep_inv (recPath : CPVRRecordingsPath) (flt : CByClientAndProviderFilter)
    (processed : List CPVRRecording) (acc : SubDirAcc) (r : CPVRRecording)
    (h : SubDirInv recPath flt processed acc) :
    SubDirInv recPath flt (processed ++ [r]) (subDirStep recPath flt acc r) := by
  by_cases hm : matchesSubDir recPath flt r = true
  case neg =>
    rw [subDirStep_no_match hm]
    refine SubDirInv.snoc_nokey r ?_ h
    unfold keyOfRec
    have hcnone : ¬((matchesSubDir recPath flt r && segOf recPath r != "") = true) := by
      intro hc
      simp only [Bool.and_eq_true] at hc
      exact hm hc.1
    rw [if_neg hcnone]
  case pos =>
  by_cases hs : segOf recPath r = ""
  case pos =>
    rw [subDirStep_empty_seg hs]
    refine SubDirInv.snoc_nokey r ?_ h
    unfold keyOfRec
    have hcnone : ¬((matchesSubDir recPath flt r && segOf recPath r != "") = true) := by
      intro hc
      simp only [Bool.and_eq_true] at hc
      rw [hs] at hc
      simp at hc
    rw [if_neg hcnone]
  case neg =>
  have hcond : (matchesSubDir recPath flt r && segOf recPath r != "") = true := by
    simp [hm, hs]
  have hkey : keyOfRec recPath flt r =
      some (lowerStr (childPath recPath.directory (segOf recPath r))) := by
    unfold keyOfRec
    rw [if_pos hcond]
  obtain ⟨hnd, hitems, hcover, hunw⟩ := h
  have hkAll_eq : cntAll recPath flt (processed ++ [r])
        (lowerStr (childPath recPath.directory (segOf recPath r))) =
      cntAll recPath flt processed
        (lowerStr (childPath recPath.directory (segOf recPath r))) + 1 := by
    rw [cntAll_snoc, if_pos hkey]
  have hkAll_ne : ∀ k, k ≠ lowerStr (childPath recPath.directory (segOf recPath r)) →
      cntAll recPath flt (processed ++ [r]) k = cntAll recPath flt processed k := by
    intro k hk
    rw [cntAll_snoc, hkey, if_neg (fun hc => hk (Option.some.inj hc).symm), Nat.add_zero]
  have hkUnw_eq : cntUnw recPath flt (processed ++ [r])
        (lowerStr (childPath recPath.directory (segOf recPath r))) =
      cntUnw recPath flt processed
        (lowerStr (childPath recPath.directory (segOf recPath r))) +
        (if r.playCount = 0 then 1 else 0) := by
    rw [cntUnw_snoc]
    congr 1
    by_cases hpc : r.playCount = 0 <;> simp [hpc, hkey]
  have hkUnw_ne : ∀ k, k ≠ lowerStr (childPath recPath.directory (segOf recPath r)) →
      cntUnw recPath flt (processed ++ [r]) k = cntUnw recPath flt processed k := by
    intro k hk
    rw [cntUnw_snoc, if_neg, Nat.add_zero]
    rintro ⟨hc, -⟩
    rw [hkey] at hc
    exact hk (Option.some.inj hc).symm
  cases hfind : acc.items.find? (fun it =>
      StringUtils.EqualsNoCase it.path
        (childPath recPath.directory (segOf recPath r))) with
  | none =>
    rw [subDirStep_match_none hm hs hfind]
    have hknew : folderKey (bumpFolder (newFolder
        (childPath recPath.directory (segOf recPath r)) (segOf recPath r) r) r) =
        lowerStr (childPath recPath.directory (segOf recPath r)) := rfl
    have hkeys : ∀ it ∈ acc.items,
        folderKey it ≠ lowerStr (childPath recPath.directory (segOf recPath r)) := by
      intro it hit hcontra
      exact (List.find?_eq_none.mp hfind it hit) ((eqNoCase_true_iff _ _).mpr hcontra)
    have hcnt0 : cntAll recPath flt processed
        (lowerStr (childPath recPath.directory (segOf recPath r))) = 0 := by
      by_contra hne
      obtain ⟨r', hr', hk'⟩ :=
        (cntAll_pos_iff recPath flt processed _).mp (Nat.pos_of_ne_zero hne)
      obtain ⟨it, hit, hkeq⟩ := hcover r' hr' _ hk'
      exact hkeys it hit hkeq
    have hcntU0 : cntUnw recPath flt processed
        (lowerStr (childPath recPath.directory (segOf recPath r))) = 0 :=
      cntUnw_eq_zero_of_cntAll_eq_zero _ _ _ _ hcnt0
    refine ⟨?_, ?_, ?_, ?_⟩
    · simp only [List.map_append, List.map_cons, List.map_nil, hknew]
      rw [List.nodup_append]
      refine ⟨hnd, List.nodup_singleton _, ?_⟩
      intro a ha hb
      rw [List.mem_singleton] at hb
      subst hb
      obtain ⟨it, hit, hkeq⟩ := List.mem_map.mp ha
      exact hkeys it hit hkeq
    · intro it' hit'
      rcases List.mem_append.mp hit' with hit | hnew
      · obtain ⟨h1, h2, h3, h4, h5⟩ := hitems it' hit
        have hne := hkeys it' hit
        have hpathne : it'.path ≠ childPath recPath.directory (segOf recPath r) := by
          intro hcontra
          exact hne (by rw [folderKey_def, hcontra])
        refine ⟨by rw [hkAll_ne _ hne]; exact h1, by rw [hkUnw_ne _ hne]; exact h2,
                ?_, h4, h5⟩
        rw [hkUnw_ne _ hne]
        by_cases hpc : r.playCount = 0
        · simp only [hpc, beq_self_eq_true, if_true]
          rw [mem_insertPath]
          simp [hpathne, h3]
        · rw [if_neg (by simp [hpc])]
          exact h3
      · rw [List.mem_singleton] at hnew
        subst hnew
        refine ⟨?_, ?_, ?_, Nat.one_pos, rfl⟩
        · rw [hknew, hkAll_eq, hcnt0]
          rfl
        · rw [hknew, hkUnw_eq, hcntU0]
          by_cases hpc : r.playCount = 0 <;>
            simp [bumpFolder, newFolder, hpc]
        · rw [hknew, hkUnw_eq, hcntU0]
          have hpmem : ¬ (childPath recPath.directory (segOf recPath r)) ∈ acc.unwatched := by
            intro hcontra
            obtain ⟨it, hit, hpe⟩ := hunw _ hcontra
            exact hkeys it hit (by rw [folderKey_def, hpe])
          by_cases hpc : r.playCount = 0
          · simp only [hpc, beq_self_eq_true, if_true]
            rw [show (bumpFolder (newFolder
                (childPath recPath.directory (segOf recPath r)) (segOf recPath r) r) r).path =
                childPath recPath.directory (segOf recPath r) from rfl]
            rw [mem_insertPath]
            simp
          · rw [if_neg (by simp [hpc])]
            simp [hpc, hpmem]
            exact hpmem
    · intro r' hr' k hk'
      rcases List.mem_append.mp hr' with hold | hnewr
      · obtain ⟨it, hit, hkeq⟩ := hcover r' hold k hk'
        exact ⟨it, List.mem_append_left _ hit, hkeq⟩
      · rw [List.mem_singleton] at hnewr
        rw [hnewr, hkey] at hk'
        have hkk : k = lowerStr (childPath recPath.directory (segOf recPath r)) :=
          (Option.some.inj hk').symm
        subst hkk
        exact ⟨bumpFolder (newFolder (childPath recPath.directory (segOf recPath r))
                 (segOf recPath r) r) r,
               List.mem_append_right _ (List.mem_singleton.mpr rfl), hknew⟩
    · intro q hq
      by_cases hpc : r.playCount = 0
      · rw [if_pos (by simp [hpc])] at hq
        rcases (mem_insertPath _ _ _).mp hq with hold | rfl
        · obtain ⟨it, hit, hpe⟩ := hunw q hold
          exact ⟨it, List.mem_append_left _ hit, hpe⟩
        · exact ⟨bumpFolder (newFolder (childPath recPath.directory (segOf recPath r))
                   (segOf recPath r) r) r,
                 List.mem_append_right _ (List.mem_singleton.mpr rfl), rfl⟩
      · rw [if_neg (by simp [hpc])] at hq
        obtain ⟨it, hit, hpe⟩ := hunw q hq
        exact ⟨it, List.mem_append_left _ hit, hpe⟩
  | some it0 =>
    rw [subDirStep_match_some hm hs hfind]
    have hit0mem : it0 ∈ acc.items := List.mem_of_find?_eq_some hfind
    have hpred : StringUtils.EqualsNoCase it0.path
        (childPath recPath.directory (segOf recPath r)) = true := by
      have hfs := List.find?_some hfind
      simpa using hfs
    have hit0key : folderKey it0 =
        lowerStr (childPath recPath.directory (segOf recPath r)) :=
      (eqNoCase_true_iff _ _).mp hpred
    have uniq : ∀ it ∈ acc.items,
        folderKey it = lowerStr (childPath recPath.directory (segOf recPath r)) →
        it = it0 := by
      intro it hit hkeq
      exact List.inj_on_of_nodup_map hnd hit hit0mem (hkeq.trans hit0key.symm)
    have hkmap : ((acc.items.map
        (gUpd r (childPath recPath.directory (segOf recPath r)))).map folderKey) =
        acc.items.map folderKey := by
      rw [List.map_map]
      exact List.map_congr_left (fun it _ => gUpd_key r _ it)
    refine ⟨?_, ?_, ?_, ?_⟩
    · rw [hkmap]
      exact hnd
    · intro it' hit'
      obtain ⟨it, hit, rfl⟩ := List.mem_map.mp hit'
      obtain ⟨h1, h2, h3, h4, h5⟩ := hitems it hit
      by_cases hke : folderKey it = lowerStr (childPath recPath.directory (segOf recPath r))
      · have hiteq : it = it0 := uniq it hit hke
        subst hiteq
        rw [gUpd_of_key_eq r hke]
        refine ⟨?_, ?_, ?_, ?_, ?_⟩
        · rw [updFolder_key, hke, hkAll_eq, updFolder_total, h1, hke]
        · rw [updFolder_key, hke, hkUnw_eq, updFolder_unwatched, h2, hke]
          congr 1
          by_cases hpc : r.playCount = 0 <;> simp [hpc]
        · rw [updFolder_key, hke, hkUnw_eq, updFolder_path]
          by_cases hpc : r.playCount = 0
          · rw [if_pos (by simp [hpc] : ((r.playCount == 0) = true)), if_pos hpc]
            rw [mem_insertPath]
            simp
          · rw [if_neg (by simp [hpc]), if_neg hpc]
            rw [hke] at h3
            simpa using h3
        · rw [updFolder_total]
          exact Nat.succ_pos _
        · rw [updFolder_overlay]
          exact h5
      · rw [gUpd_of_key_ne r hke]
        refine ⟨by rw [hkAll_ne _ hke]; exact h1, by rw [hkUnw_ne _ hke]; exact h2,
                ?_, h4, h5⟩
        rw [hkUnw_ne _ hke]
        have hpne : it.path ≠ it0.path := by
          intro hcontra
          exact hke (by rw [folderKey_def, hcontra, ← folderKey_def, hit0key])
        by_cases hpc : r.playCount = 0
        · rw [if_pos (by simp [hpc] : ((r.playCount == 0) = true)), mem_insertPath]
          simp [hpne, h3]
        · rw [if_neg (by simp [hpc])]
          exact h3
    · intro r' hr' k hk'
      rcases List.mem_append.mp hr' with hold | hnewr
      · obtain ⟨it, hit, hkeq⟩ := hcover r' hold k hk'
        exact ⟨gUpd r _ it, List.mem_map_of_mem _ hit, by rw [gUpd_key]; exact hkeq⟩
      · rw [List.mem_singleton] at hnewr
        rw [hnewr, hkey] at hk'
        have hkk : k = lowerStr (childPath recPath.directory (segOf recPath r)) :=
          (Option.some.inj hk').symm
        subst hkk
        exact ⟨gUpd r _ it0, List.mem_map_of_mem _ hit0mem,
               by rw [gUpd_key]; exact hit0key⟩
    · intro q hq
      by_cases hpc : r.playCount = 0
      · rw [if_pos (by simp [hpc] : ((r.playCount == 0) = true))] at hq
        rcases (mem_insertPath _ _ _).mp hq with hold | rfl
        · obtain ⟨it, hit, hpe⟩ := hunw q hold
          exact ⟨gUpd r _ it, List.mem_map_of_mem _ hit, by rw [gUpd_path]; exact hpe⟩
        · exact ⟨gUpd r _ it0, List.mem_map_of_mem _ hit0mem, gUpd_path r _ it0⟩
      · rw [if_neg (by simp [hpc])] at hq
        obtain ⟨it, hit, hpe⟩ := hunw q hq
        exact ⟨gUpd r _ it, List.mem_map_of_mem _ hit, by rw [gUpd_path]; exact hpe⟩

theorem overlayFix_path (u : List String) (it : FolderItem) :
    (overlayFix u it).path = it.path := by
  unfold overlayFix
  split <;> rfl

theorem overlayFix_key (u : List String) (it : FolderItem) :
    folderKey (overlayFix u it) = folderKey it := by
  rw [folderKey_def, folderKey_def, overlayFix_path]

theorem overlayFix_total (u : List String) (it : FolderItem) :
    (overlayFix u it).totalepisodes = it.totalepisodes := by
  unfold overlayFix
  split <;> rfl

theorem subDirInv_nil (recPath : CPVRRecordingsPath) (flt : CByClientAndProviderFilter) :
    SubDirInv recPath flt [] ⟨[], []⟩ := by
  refine ⟨by simp, by simp, by simp, by simp⟩

theorem foldl_subDirStep_inv (recPath : CPVRRecordingsPath)
    (flt : CByClientAndProviderFilter) :
    ∀ (l processed : List CPVRRecording) (acc : SubDirAcc),
      SubDirInv recPath flt processed acc →
      SubDirInv recPath flt (processed ++ l) (l.foldl (subDirStep recPath flt) acc) := by
  intro l
  induction l with
  | nil =>
    intro processed acc h
    simpa using h
  | cons x xs ih =>
    intro processed acc h
    have h1 := subDirStep_inv recPath flt processed acc x h
    have h2 := ih (processed ++ [x]) (subDirStep recPath flt acc x) h1
    simpa [List.append_assoc] using h2

theorem getSubDirs_inv (recPath : CPVRRecordingsPath)
    (flt : CByClientAndProviderFilter) (recordings : List CPVRRecording) :
    SubDirInv recPath flt recordings
      (recordings.foldl (subDirStep recPath flt) ⟨[], []⟩) := by
  have h := foldl_subDirStep_inv recPath flt recordings [] ⟨[], []⟩
    (subDirInv_nil recPath flt)
  simpa using h

theorem getSubDirs_char (recPath : CPVRRecordingsPath)
    (flt : CByClientAndProviderFilter) (recordings : List CPVRRecording) :
    ((GetGetRecordingsSubDirectories recPath flt recordings).map folderKey).Nodup ∧
    (∀ it ∈ GetGetRecordingsSubDirectories recPath flt recordings,
        it.totalepisodes = cntAll recPath flt recordings (folderKey it) ∧
        0 < it.totalepisodes ∧
        (it.overlayWatched = false ↔
          0 < cntUnw recPath flt recordings (folderKey it))) ∧
    (∀ r ∈ recordings, ∀ k, keyOfRec recPath flt r = some k →
        ∃ it ∈ GetGetRecordingsSubDirectories recPath flt recordings,
          folderKey it = k) := by
  obtain ⟨hnd, hitems, hcover, hunw⟩ := getSubDirs_inv recPath flt recordings
  have hGG : GetGetRecordingsSubDirectories recPath flt recordings =
      (recordings.foldl (subDirStep recPath flt) ⟨[], []⟩).items.map
        (overlayFix (recordings.foldl (subDirStep recPath flt) ⟨[], []⟩).unwatched) := rfl
  rw [hGG]
  refine ⟨?_, ?_, ?_⟩
  · have hmapmap : (((recordings.foldl (subDirStep recPath flt) ⟨[], []⟩).items.map
        (overlayFix (recordings.foldl (subDirStep recPath flt) ⟨[], []⟩).unwatched)).map
          folderKey) =
        (recordings.foldl (subDirStep recPath flt) ⟨[], []⟩).items.map folderKey := by
      rw [List.map_map]
      exact List.map_congr_left (fun it _ => overlayFix_key _ it)
    rw [hmapmap]
    exact hnd
  · intro it' hit'
    obtain ⟨it, hit, rfl⟩ := List.mem_map.mp hit'
    obtain ⟨h1, h2, h3, h4, h5⟩ := hitems it hit
    refine ⟨?_, ?_, ?_⟩
    · rw [overlayFix_key, overlayFix_total]
      exact h1
    · rw [overlayFix_total]
      exact h4
    · rw [overlayFix_key]
      unfold overlayFix
      by_cases hmem : it.path ∈
          (recordings.foldl (subDirStep recPath flt) ⟨[], []⟩).unwatched
      · rw [if_pos hmem]
        simp only [iff_true_intro (h3.mp hmem)]
      · rw [if_neg hmem]
        rw [h5]
        simp only [Bool.true_eq_false, false_iff]
        intro hq
        exact hmem (h3.mpr hq)
  · intro r hr k hk
    obtain ⟨it, hit, hkeq⟩ := hcover r hr k hk
    exact ⟨overlayFix _ it, List.mem_map_of_mem _ hit,
           by rw [overlayFix_key]; exact hkeq⟩

/-- Sample active TV recording in directory "Foo/Bar", watched once. -/
def fooBarRec : CPVRRecording :=
  ⟨1, -1, false, false, "Foo/Bar", 1, false, false, 10, 100⟩

/-- Sample active TV recording in directory "Foo/Baz", unwatched. -/
def fooBazRec : CPVRRecording :=
  ⟨1, -1, false, false, "Foo/Baz", 0, false, false, 20, 50⟩

/-- Claim C3. In every grouped, active recordings listing exactly one
synthetic folder is produced per distinct (case-insensitive) immediate
sub-directory segment among the recordings passing the deleted, radio and
client/provider filters (folder dedup keys are pairwise distinct and every
contributing recording has its folder), and each folder's `totalepisodes`
equals the number of aggregated recordings of its subtree; concretely, two
active recordings with directories "Foo/Bar" and "Foo/Baz" produce under a
grouped root listing exactly one folder "Foo" with totalepisodes = 2, while
a flat listing of "Foo" lists both recordings as leaves. -/
theorem pvr_C3_recordings_grouping :
    (∀ (recPath : CPVRRecordingsPath) (flt : CByClientAndProviderFilter)
       (recordings : List CPVRRecording),
      ((GetGetRecordingsSubDirectories recPath flt recordings).map folderKey).Nodup ∧
      (∀ it ∈ GetGetRecordingsSubDirectories recPath flt recordings,
          it.totalepisodes = cntAll recPath flt recordings (folderKey it) ∧
          0 < it.totalepisodes) ∧
      (∀ r ∈ recordings, ∀ k, keyOfRec recPath flt r = some k →
          ∃ it ∈ GetGetRecordingsSubDirectories recPath flt recordings,
            folderKey it = k)) ∧
    GetGetRecordingsSubDirectories ⟨true, false, false, ""⟩ ⟨false, -1, -1⟩
      [fooBarRec, fooBazRec] = [⟨"Foo", "Foo", 20, 2, 1, 1, 0, 150, false⟩] ∧
    CPVRGUIDirectory.GetRecordingsDirectory (some "flat") false ⟨false, -1, -1⟩
      ⟨true, false, false, "Foo"⟩ [fooBarRec, fooBazRec] =
      (true, [RecDirEntry.leaf fooBarRec true, RecDirEntry.leaf fooBazRec false]) := by
  refine ⟨?_, by decide, by decide⟩
  intro recPath flt recordings
  obtain ⟨hnd, hitems, hcover⟩ := getSubDirs_char recPath flt recordings
  exact ⟨hnd, fun it hit => ⟨(hitems it hit).1, (hitems it hit).2.1⟩, hcover⟩

/-- Witness for claim C3: the aggregate count law instantiated at the
concrete "Foo/Bar"/"Foo/Baz" fixture. -/
theorem pvr_C3_recordings_grouping_witness :
    (⟨"Foo", "Foo", 20, 2, 1, 1, 0, 150, false⟩ : FolderItem).totalepisodes =
      cntAll ⟨true, false, false, ""⟩ ⟨false, -1, -1⟩ [fooBarRec, fooBazRec]
        (folderKey ⟨"Foo", "Foo", 20, 2, 1, 1, 0, 150, false⟩) :=
  ((pvr_C3_recordings_grouping.1 ⟨true, false, false, ""⟩ ⟨false, -1, -1⟩
      [fooBarRec, fooBazRec]).2.1
    ⟨"Foo", "Foo", 20, 2, 1, 1, 0, 150, false⟩ (by decide)).1

/-- Claim C6. A synthetic folder produced by the grouped recordings listing
carries the unwatched overlay iff at least one recording aggregated into it
has play count zero (and the watched overlay otherwise). -/
theorem pvr_C6_folder_overlay (recPath : CPVRRecordingsPath)
    (flt : CByClientAndProviderFilter) (recordings : List CPVRRecording)
    (it : FolderItem) (hit : it ∈ GetGetRecordingsSubDirectories recPath flt recordings) :
    it.overlayWatched = false ↔
      ∃ r ∈ recordings, keyOfRec recPath flt r = some (folderKey it) ∧
        r.playCount = 0 := by
  obtain ⟨-, hitems, -⟩ := getSubDirs_char recPath flt recordings
  exact ((hitems it hit).2.2).trans
    (cntUnw_pos_iff recPath flt recordings (folderKey it))

/-- Witness for claim C6: a folder aggregating one watched and one
unwatched recording reports the unwatched overlay. -/
theorem pvr_C6_folder_overlay_witness :
    (⟨"Foo", "Foo", 20, 2, 1, 1, 0, 150, false⟩ : FolderItem).overlayWatched = false :=
  (pvr_C6_folder_overlay ⟨true, false, false, ""⟩ ⟨false, -1, -1⟩
      [fooBarRec, fooBazRec] ⟨"Foo", "Foo", 20, 2, 1, 1, 0, 150, false⟩
      (by decide)).mpr
    ⟨fooBazRec, by decide, by decide, by decide⟩

/-- One folder entry as handed to the asynchronous in-progress-count
refresh job: the folder's recordings path (parsed back from the item path;
`pathValid` models `CPVRRecordingsPath::IsValid`), the client/provider
filter from the folder URL, the currently shown `inprogressepisodes`
property and an identity used for the UI item-update notification. -/
structure JobFolder where
  pathValid : Bool
  radio : Bool
  deleted : Bool
  directory : String
  flt : CByClientAndProviderFilter
  inprogressepisodes : Int
  pathId : String
deriving DecidableEq

/-- Recording matching criteria of the refresh job's inner scan
(PVRGUIDirectory.cpp:571-576): same deleted and radio flags, passes the
client/provider filter, grouped directory membership. -/
def jobRecMatches (f : JobFolder) (r : CPVRRecording) : Bool :=
  !((r.isDeleted != f.deleted) || (r.isRadio != f.radio) ||
    f.flt.Filter r.clientID r.clientProviderUid ||
    !(IsDirectoryMember f.directory r.directory true))

/-- Recomputed in-progress-episode count of one folder
(PVRGUIDirectory.cpp:565-581), using the possibly backend-involving resume
point check. -/
def jobInProgressCount (recordings : List CPVRRecording) (f : JobFolder) : Int :=
  ((recordings.filter (fun r => jobRecMatches f r && r.backendResumePartWay)).length : Int)

/-- Per-folder body of the refresh job's loop (PVRGUIDirectory.cpp:557-589):
skip folders with an invalid recordings path; recompute the count; when it
differs from the shown property, update the property and emit a UI
item-update notification for this entry, else leave the entry untouched
with no notification. -/
def jobProcessFolder (recordings : List CPVRRecording) (f : JobFolder) :
    JobFolder × Option String :=
  if !f.pathValid then (f, none)
  else
    let newCount : Int := jobInProgressCount recordings f
    if newCount != f.inprogressepisodes then
      ({ f with inprogressepisodes := newCount }, some f.pathId)
    else (f, none)

/-- Translation of `CPVRRecordingFoldersInProgressEpisodesCountJob::DoWork`
(PVRGUIDirectory.cpp:550): nothing happens when the recordings collection
or the folder list is empty; otherwise every folder is processed
independently, producing the updated folder list and the list of entries
for which a GUI_MSG_UPDATE_ITEM notification is sent. -/
def CPVRRecordingFoldersInProgressEpisodesCountJob.DoWork
    (folders : List JobFolder) (recordings : List CPVRRecording) :
    List JobFolder × List String :=
  if recordings.isEmpty || folders.isEmpty then (folders, [])
  else (folders.map (fun f => (jobProcessFolder recordings f).1),
        folders.filterMap (fun f => (jobProcessFolder recordings f).2))

/-- Claim C7. For every folder processed by the asynchronous refresh task
(nonempty work, valid folder path): when the recomputed in-progress count
differs from the shown property, the folder's property is set to the new
count and a notification is emitted for that specific entry; when it is
equal, the folder is left unchanged and no notification is emitted for it.
The job output is exactly the per-folder processing mapped over the folder
list. -/
theorem pvr_C7_inprogress_refresh (folders : List JobFolder)
    (recordings : List CPVRRecording)
    (hrec : recordings ≠ []) (hfold : folders ≠ []) :
    CPVRRecordingFoldersInProgressEpisodesCountJob.DoWork folders recordings =
      (folders.map (fun f => (jobProcessFolder recordings f).1),
       folders.filterMap (fun f => (jobProcessFolder recordings f).2)) ∧
    (∀ f : JobFolder, f.pathValid = true →
      (jobInProgressCount recordings f ≠ f.inprogressepisodes →
        jobProcessFolder recordings f =
          ({ f with inprogressepisodes := jobInProgressCount recordings f },
           some f.pathId)) ∧
      (jobInProgressCount recordings f = f.inprogressepisodes →
        jobProcessFolder recordings f = (f, none))) := by
  constructor
  · unfold CPVRRecordingFoldersInProgressEpisodesCountJob.DoWork
    rw [if_neg]
    simp [hrec, hfold]
  · intro f hvalid
    constructor
    · intro hne
      unfold jobProcessFolder
      rw [if_neg (by simp [hvalid]), if_pos (by simp [hne])]
    · intro heq
      unfold jobProcessFolder
      rw [if_neg (by simp [hvalid]), if_neg (by simp [heq])]

/-- Witness for claim C7: one concrete folder whose shown count is stale
gets updated and notified; one whose count is current stays untouched. -/
theorem pvr_C7_inprogress_refresh_witness :
    jobProcessFolder [fooBarRec]
        ⟨true, false, false, "Foo", ⟨false, -1, -1⟩, 3, "recordings/Foo"⟩ =
      (⟨true, false, false, "Foo", ⟨false, -1, -1⟩, 0, "recordings/Foo"⟩,
       some "recordings/Foo") ∧
    jobProcessFolder [fooBarRec]
        ⟨true, false, false, "Foo", ⟨false, -1, -1⟩, 0, "recordings/Foo"⟩ =
      (⟨true, false, false, "Foo", ⟨false, -1, -1⟩, 0, "recordings/Foo"⟩, none) :=
  ⟨((pvr_C7_inprogress_refresh
        [⟨true, false, false, "Foo", ⟨false, -1, -1⟩, 3, "recordings/Foo"⟩]
        [fooBarRec] (by decide) (by decide)).2
      ⟨true, false, false, "Foo", ⟨false, -1, -1⟩, 3, "recordings/Foo"⟩ rfl).1
      (by decide),
   ((pvr_C7_inprogress_refresh
        [⟨true, false, false, "Foo", ⟨false, -1, -1⟩, 0, "recordings/Foo"⟩]
        [fooBarRec] (by decide) (by decide)).2
      ⟨true, false, false, "Foo", ⟨false, -1, -1⟩, 0, "recordings/Foo"⟩ rfl).2
      (by decide)⟩

/-- Split a character list on slashes into segments. -/
def splitSlash : List Char → List (List Char)
  | [] => [[]]
  | c :: rest =>
    if c = '/' then [] :: splitSlash rest
    else
      match splitSlash rest with
      | [] => [[c]]
      | s :: ss => (c :: s) :: ss

/-- Path segments of a virtual path after trimming surrounding slashes. -/
def pathSegments (s : String) : List String :=
  (splitSlash (TrimSlashes s).data).map (fun cs => ⟨cs⟩)

/-- Numeric value of a decimal digit list. -/
def natOfDigits (cs : List Char) : Nat :=
  cs.foldl (fun a c => a * 10 + (c.toNat - 48)) 0

/-- Nonempty all-decimal-digits test. -/
def isDigits (cs : List Char) : Bool :=
  !cs.isEmpty && cs.all (fun c => c.isDigit)

/-- Modelled from the spec: the parsed form of `CPVREpgSearchPath` (not
under src/). Grammar per the spec: the per-kind search root
(`PATH_TV_SEARCH`/`PATH_RADIO_SEARCH`), the saved-searches root, and an
individual saved search by numeric id. -/
structure CPVREpgSearchPath where
  valid : Bool
  savedSearchesRoot : Bool
  savedSearch : Bool
  radio : Bool
  id : Int
deriving DecidableEq

/-- Modelled from the spec: parsing a URL file name into a
`CPVREpgSearchPath`; anything outside the grammar is invalid. -/
def parseEpgSearchPath (fileName : String) : CPVREpgSearchPath :=
  match pathSegments fileName with
  | ["search", k] =>
      if k = "tv" || k = "radio" then ⟨true, false, false, k = "radio", -1⟩
      else ⟨false, false, false, false, -1⟩
  | ["search", k, "savedsearches"] =>
      if k = "tv" || k = "radio" then ⟨true, true, false, k = "radio", -1⟩
      else ⟨false, false, false, false, -1⟩
  | ["search", k, "savedsearches", n] =>
      if (k = "tv" || k = "radio") && isDigits n.data then
        ⟨true, false, true, k = "radio", (natOfDigits n.data : Int)⟩
      else ⟨false, false, false, false, -1⟩
  | _ => ⟨false, false, false, false, -1⟩

/-- Environment of the directory router: the backend liveness flag and the
results delivered by the per-namespace builders (each equipped separately;
the router only forwards them). Items are abstract path/label tokens. -/
structure RouterEnv where
  started : Bool
  rootDirectoryItems : Bool → List String
  recordingsResult : Bool × List String
  channelsResult : Bool × List String
  providersResult : Bool × List String
  timersResult : Bool × List String
  savedSearchesItems : Bool → List String
  savedSearchResults : Bool → Int → Bool × List String

/-- Translation of `CPVRGUIDirectory::GetDirectory` (PVRGUIDirectory.cpp:216):
trailing slashes are removed from the URL file name, then the first match
of the prefix dispatch chain wins; every recognized namespace returns
success with an empty listing when the PVR manager is not started; a path
matching no prefix is finally parsed as an EPG search path and fails when
that too is invalid. The top-level menu labels/paths are modelled as fixed
tokens. -/
def CPVRGUIDirectory.GetDirectory (env : RouterEnv) (urlFileName : String) :
    Bool × List String :=
  let fileName := URIUtils.RemoveSlashAtEnd urlFileName
  if fileName = "" then
    (true, if env.started then
        ["channels/", "recordings/active/", "recordings/deleted/"]
      else [])
  else if StringUtils.StartsWith fileName "tv" then
    (true, if env.started then env.rootDirectoryItems false else [])
  else if StringUtils.StartsWith fileName "radio" then
    (true, if env.started then env.rootDirectoryItems true else [])
  else if StringUtils.StartsWith fileName "recordings" then
    (if env.started then env.recordingsResult else (true, []))
  else if StringUtils.StartsWith fileName "channels" then
    (if env.started then env.channelsResult else (true, []))
  else if StringUtils.StartsWith fileName "providers" then
    (if env.started then env.providersResult else (true, []))
  else if StringUtils.StartsWith fileName "timers" then
    (if env.started then env.timersResult else (true, []))
  else
    if (parseEpgSearchPath urlFileName).valid then
      if env.started then
        if (parseEpgSearchPath urlFileName).savedSearchesRoot then
          (true, env.savedSearchesItems (parseEpgSearchPath urlFileName).radio)
        else if (parseEpgSearchPath urlFileName).savedSearch then
          env.savedSearchResults (parseEpgSearchPath urlFileName).radio
            (parseEpgSearchPath urlFileName).id
        else (true, [])
      else (true, [])
    else (false, [])

/-- Recognition condition actually implemented by the router: the
trailing-slash-trimmed file name is empty or has one of the namespace
prefix tokens, or the URL parses as a valid EPG search path. -/
def RecognizedStart (fileName : String) : Prop :=
  URIUtils.RemoveSlashAtEnd fileName = "" ∨
  StringUtils.StartsWith (URIUtils.RemoveSlashAtEnd fileName) "tv" = true ∨
  StringUtils.StartsWith (URIUtils.RemoveSlashAtEnd fileName) "radio" = true ∨
  StringUtils.StartsWith (URIUtils.RemoveSlashAtEnd fileName) "recordings" = true ∨
  StringUtils.StartsWith (URIUtils.RemoveSlashAtEnd fileName) "channels" = true ∨
  StringUtils.StartsWith (URIUtils.RemoveSlashAtEnd fileName) "providers" = true ∨
  StringUtils.StartsWith (URIUtils.RemoveSlashAtEnd fileName) "timers" = true ∨
  (parseEpgSearchPath fileName).valid = true

instance (s : String) : Decidable (RecognizedStart s) := by
  unfold RecognizedStart
  infer_instance

/-- First path segment of a file name, for stating the claim's
"first segment matches a namespace" reading. -/
def firstSegment (s : String) : String :=
  ⟨(TrimSlashes s).data.takeWhile (· != '/')⟩

/-- The top-level namespace tokens named by the claim. -/
def claimNamespaces : List String :=
  ["tv", "radio", "recordings", "channels", "providers", "timers"]

/-- Router environment with the backend subsystem not started and trivial
builder results. -/
def notStartedEnv : RouterEnv :=
  ⟨false, fun _ => [], (false, []), (false, []), (false, []), (false, []),
   fun _ => [], fun _ _ => (false, [])⟩

/-- Counterexample to claim C1 as stated: the path "tvbogus" has a first
segment matching none of the recognized namespaces and is not a valid EPG
search path, so the claim requires the listing to fail; but the router
dispatches by prefix, treats it as the tv namespace, and returns success
with an empty listing while the backend is not started. -/
theorem pvr_C1_counterexample :
    URIUtils.RemoveSlashAtEnd "tvbogus" ≠ "" ∧
    firstSegment "tvbogus" ∉ claimNamespaces ∧
    (parseEpgSearchPath "tvbogus").valid = false ∧
    CPVRGUIDirectory.GetDirectory notStartedEnv "tvbogus" = (true, []) :=
  ⟨by decide, by decide, by decide, by decide⟩

/-- Claim C1 (amended). While the backend is not started, every request
whose trimmed path is empty, starts with one of the namespace tokens tv,
radio, recordings, channels, providers, timers, or is a valid EPG-search
path, returns success with an empty listing; every request matching none
of these prefixes (and not a valid EPG-search path) fails, whatever the
backend state. -/
theorem pvr_C1_router_gating (env : RouterEnv) (fileName : String) :
    (env.started = false → RecognizedStart fileName →
      CPVRGUIDirectory.GetDirectory env fileName = (true, [])) ∧
    (¬ RecognizedStart fileName →
      (CPVRGUIDirectory.GetDirectory env fileName).1 = false) := by
  constructor
  · intro hstart hrec
    by_cases h0 : URIUtils.RemoveSlashAtEnd fileName = ""
    · simp [CPVRGUIDirectory.GetDirectory, h0, hstart]
    by_cases h1 : StringUtils.StartsWith (URIUtils.RemoveSlashAtEnd fileName) "tv" = true
    · simp [CPVRGUIDirectory.GetDirectory, h0, h1, hstart]
    by_cases h2 : StringUtils.StartsWith (URIUtils.RemoveSlashAtEnd fileName) "radio" = true
    · simp [CPVRGUIDirectory.GetDirectory, h0, h1, h2, hstart]
    by_cases h3 : StringUtils.StartsWith (URIUtils.RemoveSlashAtEnd fileName) "recordings" = true
    · simp [CPVRGUIDirectory.GetDirectory, h0, h1, h2, h3, hstart]
    by_cases h4 : StringUtils.StartsWith (URIUtils.RemoveSlashAtEnd fileName) "channels" = true
    · simp [CPVRGUIDirectory.GetDirectory, h0, h1, h2, h3, h4, hstart]
    by_cases h5 : StringUtils.StartsWith (URIUtils.RemoveSlashAtEnd fileName) "providers" = true
    · simp [CPVRGUIDirectory.GetDirectory, h0, h1, h2, h3, h4, h5, hstart]
    by_cases h6 : StringUtils.StartsWith (URIUtils.RemoveSlashAtEnd fileName) "timers" = true
    · simp [CPVRGUIDirectory.GetDirectory, h0, h1, h2, h3, h4, h5, h6, hstart]
    have h7 : (parseEpgSearchPath fileName).valid = true := by
      rcases hrec with h | h | h | h | h | h | h | h
      · exact absurd h h0
      · exact absurd h h1
      · exact absurd h h2
      · exact absurd h h3
      · exact absurd h h4
      · exact absurd h h5
      · exact absurd h h6
      · exact h
    simp [CPVRGUIDirectory.GetDirectory, h0, h1, h2, h3, h4, h5, h6, h7, hstart]
  · intro hrec
    unfold RecognizedStart at hrec
    push_neg at hrec
    obtain ⟨h0, h1, h2, h3, h4, h5, h6, h7⟩ := hrec
    simp [CPVRGUIDirectory.GetDirectory, h0, h1, h2, h3, h4, h5, h6, h7]

/-- Witness for the amended claim C1 at concrete inputs: "tv" succeeds
empty while not started; "bogusname" fails. -/
theorem pvr_C1_router_gating_witness :
    CPVRGUIDirectory.GetDirectory notStartedEnv "tv" = (true, []) ∧
    (CPVRGUIDirectory.GetDirectory notStartedEnv "bogusname").1 = false :=
  ⟨(pvr_C1_router_gating notStartedEnv "tv").1 rfl (Or.inr (Or.inl (by decide))),
   (pvr_C1_router_gating notStartedEnv "bogusname").2 (by decide)⟩

/-- Modelled from the spec: the part of `CPVRClient` (external) read by the
channels builder — the "first channels added" timestamp recorded at the
client's initial channel population (`GetDateTimeFirstChannelsAdded`);
`none` models an invalid `CDateTime`. -/
structure CPVRClient where
  dateTimeFirstChannelsAdded : Option Nat
deriving DecidableEq

/-- Translation of the fields of `CPVRChannel` (external entity class) read
by the channels builders. `lastWatched = 0` models a never-watched channel
(falsy `LastWatched()`), `dateTimeAdded = none` an invalid added
timestamp. -/
structure CPVRChannel where
  storageId : Nat
  clientID : Int
  clientProviderUid : Int
  isRadio : Bool
  isHidden : Bool
  lastWatched : Nat
  lastWatchedGroupId : Int
  dateTimeAdded : Option Nat
deriving DecidableEq

/-- Translation of the fields of `CPVRChannelGroupMember` (external): the
channel, the channel's client id, and the owning group's id (distinguishing
the same channel's entries across groups). -/
structure CPVRChannelGroupMember where
  channel : CPVRChannel
  channelClientID : Int
  groupId : Int
deriving DecidableEq

/-- Modelled from the spec: `CPVRChannelGroup` (external) — id, name,
hidden/deleted flags and the member list. -/
structure CPVRChannelGroup where
  groupId : Int
  groupName : String
  isHidden : Bool
  isDeleted : Bool
  members : List CPVRChannelGroupMember
deriving DecidableEq

/-- Modelled from the spec: `CPVRChannelGroup::GetByUniqueID` — the group's
member for a channel storage id, if any. -/
def CPVRChannelGroup.GetByUniqueID (g : CPVRChannelGroup) (sid : Nat) :
    Option CPVRChannelGroupMember :=
  g.members.find? (fun m => m.channel.storageId == sid)

/-- Modelled from the spec: `CPVRChannelGroup::GetMembers(Include::ONLY_VISIBLE)`
— members whose channel is not hidden. -/
def CPVRChannelGroup.GetMembersOnlyVisible (g : CPVRChannelGroup) :
    List CPVRChannelGroupMember :=
  g.members.filter (fun m => !m.channel.isHidden)

/-- Modelled from the spec: the per-kind `CPVRChannelGroups` container. -/
structure CPVRChannelGroups where
  groups : List CPVRChannelGroup
deriving DecidableEq

/-- Modelled from the spec: `CPVRChannelGroups::GetMembers(bExcludeHidden)`
— the container's groups, optionally without the hidden ones. -/
def CPVRChannelGroups.GetMembers (c : CPVRChannelGroups) (bExcludeHidden : Bool) :
    List CPVRChannelGroup :=
  c.groups.filter (fun g => !(bExcludeHidden && g.isHidden))

/-- Modelled from the spec: `CPVRChannelGroups::GetByName` — lookup of a
group by name (the client-id refinement of the lookup is outside the
claims and omitted). -/
def CPVRChannelGroups.GetByName (c : CPVRChannelGroups) (name : String) :
    Option CPVRChannelGroup :=
  c.groups.find? (fun g => g.groupName == name)

/-- Snapshot of the channel-groups collaborators consumed by the channels
builders: per-kind containers (`ChannelGroups()->Get`), the per-kind
"all channels" group (`GetGroupAll`), the pool searched by
`GetByIdFromAll`, and the client registry (`GetClient`). -/
structure PVRManagerEnv where
  groupsTV : Option CPVRChannelGroups
  groupsRadio : Option CPVRChannelGroups
  allGroupTV : Option CPVRChannelGroup
  allGroupRadio : Option CPVRChannelGroup
  allGroups : List CPVRChannelGroup
  clients : List (Int × CPVRClient)

/-- Per-kind container accessor (`CPVRChannelGroupsContainer::Get`). -/
def PVRManagerEnv.Get (env : PVRManagerEnv) (bRadio : Bool) :
    Option CPVRChannelGroups :=
  if bRadio then env.groupsRadio else env.groupsTV

/-- "All channels" group accessor (`GetGroupAll`). -/
def PVRManagerEnv.GetGroupAll (env : PVRManagerEnv) (bRadio : Bool) :
    Option CPVRChannelGroup :=
  if bRadio then env.allGroupRadio else env.allGroupTV

/-- Group lookup across all kinds by id (`GetByIdFromAll`). -/
def PVRManagerEnv.GetByIdFromAll (env : PVRManagerEnv) (id : Int) :
    Option CPVRChannelGroup :=
  env.allGroups.find? (fun g => g.groupId == id)

/-- Client lookup by id (`CPVRManager::GetClient`). -/
def PVRManagerEnv.GetClient (env : PVRManagerEnv) (id : Int) : Option CPVRClient :=
  (env.clients.find? (fun p => p.1 == id)).map (fun p => p.2)

/-- Translation of `GetLastWatchedChannelGroupMember` (PVRGUIDirectory.cpp:725):
the channel's entry in the group it was last watched in, provided that
group id is known, the group still exists, and it is neither hidden nor
deleted. -/
def GetLastWatchedChannelGroupMember (env : PVRManagerEnv)
    (channel : CPVRChannel) : Option CPVRChannelGroupMember :=
  if channel.lastWatchedGroupId != PVR_GROUP_ID_UNNKOWN then
    match env.GetByIdFromAll channel.lastWatchedGroupId with
    | some lastGroup =>
        if !lastGroup.isHidden && !lastGroup.isDeleted then
          lastGroup.GetByUniqueID channel.storageId
        else none
    | none => none
  else none

/-- Translation of `GetFirstMatchingGroupMember` (PVRGUIDirectory.cpp:739):
the channel's entry in the first non-hidden, non-deleted group of its kind
containing it. -/
def GetFirstMatchingGroupMember (env : PVRManagerEnv)
    (channel : CPVRChannel) : Option CPVRChannelGroupMember :=
  match env.Get channel.isRadio with
  | some groups =>
      ((groups.GetMembers true).filter (fun g => !g.isDeleted)).findSome?
        (fun g => g.GetByUniqueID channel.storageId)
  | none => none

/-- Modelled from the spec: the parsed form of `CPVRChannelsPath` (not
under src/) — validity, empty path, channels root, one channel group,
radio/tv kind, hidden-channels pseudo-group marker and the group name. -/
structure CPVRChannelsPath where
  valid : Bool
  empty : Bool
  channelsRoot : Bool
  channelGroup : Bool
  radio : Bool
  hiddenChannelGroup : Bool
  groupName : String
deriving DecidableEq

/-- Translation of `GetChannelGroupMembers` (PVRGUIDirectory.cpp:763): the
hidden pseudo-group resolves to all members of the "all channels" group;
the "*" group substitutes, per visible "all channels" member, the entry of
the last-watched visible non-deleted group, falling back (only when "all
channels" itself is hidden) to the first visible non-deleted containing
group, else the "all channels" member itself; a named group resolves by
name. A missing group yields an empty result (logged in the source). -/
def GetChannelGroupMembers (env : PVRManagerEnv) (path : CPVRChannelsPath) :
    List CPVRChannelGroupMember :=
  if path.hiddenChannelGroup then
    match env.GetGroupAll path.radio with
    | some group => group.members
    | none => []
  else if path.groupName = "*" then
    match env.GetGroupAll path.radio with
    | some group =>
        group.GetMembersOnlyVisible.filterMap (fun allGroupMember =>
          match GetLastWatchedChannelGroupMember env allGroupMember.channel with
          | some member => some member
          | none =>
              if group.isHidden then
                GetFirstMatchingGroupMember env allGroupMember.channel
              else some allGroupMember)
    | none => []
  else
    match env.Get path.radio with
    | some groups =>
        match groups.GetByName path.groupName with
        | some group => group.members
        | none => []
    | none => []

/-- Ordered per-member selection policy of the "all channels across all
groups" listing, as worded by the claim: the last-watched group's entry
when that group exists, is visible and not deleted and still contains the
channel; otherwise, when "all channels" is hidden, the first visible
non-deleted containing group's entry (nothing when none exists); otherwise
the "all channels" member itself. -/
def allChannelsEntryChoice (env : PVRManagerEnv) (group : CPVRChannelGroup)
    (am : CPVRChannelGroupMember) : Option CPVRChannelGroupMember :=
  match GetLastWatchedChannelGroupMember env am.channel with
  | some member => some member
  | none =>
      if group.isHidden then GetFirstMatchingGroupMember env am.channel
      else some am

/-- Claim C4. For the "*" channel group, the produced member list is
exactly the visible "all channels" members mapped through the ordered
fallback policy; the policy prefers the last-watched group's entry, falls
back to the first visible non-deleted containing group only when "all
channels" is hidden (dropping the channel when no such group exists), and
otherwise keeps the "all channels" member; and the last-watched entry is
used exactly when the last-watched group exists, is visible and not
deleted. -/
theorem pvr_C4_all_channels_substitution :
    (∀ (env : PVRManagerEnv) (path : CPVRChannelsPath) (group : CPVRChannelGroup),
      path.hiddenChannelGroup = false → path.groupName = "*" →
      env.GetGroupAll path.radio = some group →
      GetChannelGroupMembers env path =
        group.GetMembersOnlyVisible.filterMap (allChannelsEntryChoice env group)) ∧
    (∀ (env : PVRManagerEnv) (group : CPVRChannelGroup) (am : CPVRChannelGroupMember),
      (∀ m, GetLastWatchedChannelGroupMember env am.channel = some m →
        allChannelsEntryChoice env group am = some m) ∧
      (GetLastWatchedChannelGroupMember env am.channel = none →
        group.isHidden = true →
        allChannelsEntryChoice env group am =
          GetFirstMatchingGroupMember env am.channel) ∧
      (GetLastWatchedChannelGroupMember env am.channel = none →
        group.isHidden = false →
        allChannelsEntryChoice env group am = some am)) ∧
    (∀ (env : PVRManagerEnv) (ch : CPVRChannel) (lastGroup : CPVRChannelGroup),
      ch.lastWatchedGroupId ≠ PVR_GROUP_ID_UNNKOWN →
      env.GetByIdFromAll ch.lastWatchedGroupId = some lastGroup →
      lastGroup.isHidden = false → lastGroup.isDeleted = false →
      GetLastWatchedChannelGroupMember env ch =
        lastGroup.GetByUniqueID ch.storageId) := by
  refine ⟨?_, ?_, ?_⟩
  · intro env path group hHidden hName hAll
    unfold GetChannelGroupMembers
    rw [if_neg (by simp [hHidden]), if_pos hName, hAll]
    rfl
  · intro env group am
    refine ⟨?_, ?_, ?_⟩
    · intro m hm
      unfold allChannelsEntryChoice
      rw [hm]
    · intro hnone hhid
      unfold allChannelsEntryChoice
      rw [hnone]
      simp only
      rw [if_pos hhid]
    · intro hnone hnothid
      unfold allChannelsEntryChoice
      rw [hnone]
      simp only
      rw [if_neg (by simp [hnothid])]
  · intro env ch lastGroup hne hfindg hnh hnd
    unfold GetLastWatchedChannelGroupMember
    rw [if_pos (by simp [hne] : ((ch.lastWatchedGroupId != PVR_GROUP_ID_UNNKOWN) = true))]
    rw [hfindg]
    simp only
    rw [if_pos (by simp [hnh, hnd])]

/-- Channel last watched in group 5, member of both group 5 and the "all
channels" group. -/
def lastWatchedChannel : CPVRChannel := ⟨100, 1, -1, false, false, 999, 5, none⟩

/-- Visible, non-deleted group 5 containing the channel. -/
def lastWatchedGroup : CPVRChannelGroup :=
  ⟨5, "Favs", false, false, [⟨lastWatchedChannel, 1, 5⟩]⟩

/-- Visible "all channels" group containing the channel. -/
def allChannelsGroup : CPVRChannelGroup :=
  ⟨1, "All channels", false, false, [⟨lastWatchedChannel, 1, 1⟩]⟩

/-- Channel-groups environment for the substitution fixture. -/
def substitutionEnv : PVRManagerEnv :=
  ⟨some ⟨[lastWatchedGroup]⟩, none, some allChannelsGroup, none,
   [lastWatchedGroup, allChannelsGroup], []⟩

/-- Channels path of the "*" group. -/
def starPath : CPVRChannelsPath := ⟨true, false, false, true, false, false, "*"⟩

/-- Witness for claim C4: in the fixture, the "*" listing substitutes the
last-watched group's member entry (group id 5) for the "all channels"
member (group id 1). -/
theorem pvr_C4_all_channels_substitution_witness :
    GetChannelGroupMembers substitutionEnv starPath =
      allChannelsGroup.GetMembersOnlyVisible.filterMap
        (allChannelsEntryChoice substitutionEnv allChannelsGroup) ∧
    GetChannelGroupMembers substitutionEnv starPath =
      [⟨lastWatchedChannel, 1, 5⟩] :=
  ⟨pvr_C4_all_channels_substitution.1 substitutionEnv starPath allChannelsGroup
      rfl rfl rfl,
   by decide⟩

/-- One row of a channels listing: the fixed TV/Radio root folders, a
channel-group folder, or a channel entry with its "hideable" property. -/
inductive ChannelsDirEntry where
  | tvRoot : ChannelsDirEntry
  | radioRoot : ChannelsDirEntry
  | groupFolder (g : CPVRChannelGroup) : ChannelsDirEntry
  | chan (m : CPVRChannelGroupMember) (hideable : Bool) : ChannelsDirEntry
deriving DecidableEq

/-- Per-member filter of the channel-group listing loop
(PVRGUIDirectory.cpp:861-897): client/provider filter, hidden-flag match,
"played only" filter, and the "date-added" view filter (valid added
timestamp, strictly after the owning client's "first channels added"
timestamp when that is recorded); entries of the date-added view are marked
hideable. -/
def channelEntryFilter (env : PVRManagerEnv) (flt : CByClientAndProviderFilter)
    (playedOnly dateAdded showHiddenChannels : Bool)
    (gm : CPVRChannelGroupMember) : Option ChannelsDirEntry :=
  if flt.Filter gm.channel.clientID gm.channel.clientProviderUid then none
  else if showHiddenChannels != gm.channel.isHidden then none
  else if playedOnly && gm.channel.lastWatched == 0 then none
  else if dateAdded then
    match gm.channel.dateTimeAdded with
    | none => none
    | some added =>
        match env.GetClient gm.channelClientID with
        | some client =>
            match client.dateTimeFirstChannelsAdded with
            | some first =>
                if added ≤ first then none
                else some (ChannelsDirEntry.chan gm true)
            | none => some (ChannelsDirEntry.chan gm true)
        | none => some (ChannelsDirEntry.chan gm true)
  else some (ChannelsDirEntry.chan gm false)

/-- Translation of `CPVRGUIDirectory::GetChannelsDirectory`
(PVRGUIDirectory.cpp:826): empty channels path lists the fixed TV/Radio
folders; the channels root lists the non-hidden groups of the kind; a
channel group resolves its members and filters them per entry; any other
path fails. -/
def CPVRGUIDirectory.GetChannelsDirectory (env : PVRManagerEnv)
    (flt : CByClientAndProviderFilter) (view : Option String)
    (path : CPVRChannelsPath) : Bool × List ChannelsDirEntry :=
  if path.valid then
    if path.empty then
      (true, [ChannelsDirEntry.tvRoot, ChannelsDirEntry.radioRoot])
    else if path.channelsRoot then
      match env.Get path.radio with
      | some channelGroups =>
          (true, (channelGroups.GetMembers true).map ChannelsDirEntry.groupFolder)
      | none => (false, [])
    else if path.channelGroup then
      (true, (GetChannelGroupMembers env path).filterMap
        (channelEntryFilter env flt (view == some "lastplayed")
          (view == some "dateadded") path.hiddenChannelGroup))
    else (false, [])
  else (false, [])

theorem channelEntryFilter_dateAdded (env : PVRManagerEnv)
    (flt : CByClientAndProviderFilter) (showHiddenChannels : Bool)
    (gm : CPVRChannelGroupMember) (e : ChannelsDirEntry)
    (hf : channelEntryFilter env flt false true showHiddenChannels gm = some e) :
    ∃ added, e = ChannelsDirEntry.chan gm true ∧
      gm.channel.dateTimeAdded = some added ∧
      (∀ client first, env.GetClient gm.channelClientID = some client →
        client.dateTimeFirstChannelsAdded = some first → first < added) := by
  unfold channelEntryFilter at hf
  split at hf
  · simp at hf
  split at hf
  · simp at hf
  split at hf
  · simp at hf
  split at hf
  case isFalse hh => exact absurd rfl hh
  revert hf
  cases hda : gm.channel.dateTimeAdded with
  | none =>
    intro hf
    simp at hf
  | some added =>
    cases hcl : env.GetClient gm.channelClientID with
    | none =>
      intro hf
      simp at hf
      refine ⟨added, hf.symm, rfl, ?_⟩
      intro client first hc hfirst
      cases hc
    | some client =>
      intro hf
      cases hfa : client.dateTimeFirstChannelsAdded with
      | none =>
        simp [hfa] at hf
        refine ⟨added, hf.symm, rfl, ?_⟩
        intro client' first hc hfirst
        have hcc : client = client' := Option.some.inj hc
        subst hcc
        rw [hfa] at hfirst
        cases hfirst
      | some first0 =>
        by_cases hle : added ≤ first0
        · simp [hfa, hle] at hf
        · simp [hfa, hle] at hf
          refine ⟨added, hf.symm, rfl, ?_⟩
          intro client' first hc hfirst
          have hcc : client = client' := Option.some.inj hc
          subst hcc
          rw [hfa] at hfirst
          have hff : first0 = first := Option.some.inj hfirst
          subst hff
          exact Nat.lt_of_not_le hle

/-- Claim C9. In the channels "date-added" view every listed channel entry
is marked hideable, its channel's added timestamp is valid, and whenever
the owning client recorded a valid "first channels added" timestamp the
channel's added timestamp is strictly after it — so channels added during
the client's initial population are excluded from the view. -/
theorem pvr_C9_date_added_view (env : PVRManagerEnv)
    (flt : CByClientAndProviderFilter) (path : CPVRChannelsPath)
    (gm : CPVRChannelGroupMember) (hideable : Bool)
    (hmem : ChannelsDirEntry.chan gm hideable ∈
      (CPVRGUIDirectory.GetChannelsDirectory env flt (some "dateadded") path).2) :
    hideable = true ∧
    ∃ added, gm.channel.dateTimeAdded = some added ∧
      (∀ client first, env.GetClient gm.channelClientID = some client →
        client.dateTimeFirstChannelsAdded = some first → first < added) := by
  unfold CPVRGUIDirectory.GetChannelsDirectory at hmem
  split at hmem
  case isFalse => simp at hmem
  split at hmem
  case isTrue => simp at hmem
  split at hmem
  case isTrue =>
    revert hmem
    cases hg : env.Get path.radio with
    | none =>
      intro hmem
      simp at hmem
    | some channelGroups =>
      intro hmem
      simp only at hmem
      obtain ⟨g, -, hge⟩ := List.mem_map.mp hmem
      cases hge
  split at hmem
  case isFalse => simp at hmem
  simp only at hmem
  rw [show ((some "dateadded" : Option String) == some "lastplayed") = false from by decide,
      show ((some "dateadded" : Option String) == some "dateadded") = true from by decide]
    at hmem
  obtain ⟨gm', -, hfe⟩ := List.mem_filterMap.mp hmem
  obtain ⟨added, he, hda, himp⟩ :=
    channelEntryFilter_dateAdded env flt path.hiddenChannelGroup gm' _ hfe
  injection he with h1 h2
  subst h1
  exact ⟨h2, added, hda, himp⟩

/-- Channel added (timestamp 20) after its client's initial population
(timestamp 10). -/
def lateAddedChannel : CPVRChannel := ⟨200, 1, -1, false, false, 0, -1, some 20⟩

/-- Group "G" containing the late-added channel. -/
def lateAddedGroup : CPVRChannelGroup :=
  ⟨2, "G", false, false, [⟨lateAddedChannel, 1, 2⟩]⟩

/-- Environment whose client 1 recorded "first channels added" at 10. -/
def dateAddedEnv : PVRManagerEnv :=
  ⟨some ⟨[lateAddedGroup]⟩, none, none, none, [lateAddedGroup], [(1, ⟨some 10⟩)]⟩

/-- Channels path of the named group "G". -/
def groupGPath : CPVRChannelsPath := ⟨true, false, false, true, false, false, "G"⟩

/-- Witness for claim C9: the late-added channel is listed in the
date-added view, so the theorem yields its hideable marking and the strict
timestamp ordering at this concrete input. -/
theorem pvr_C9_date_added_view_witness :
    true = true ∧
    ∃ added, (⟨lateAddedChannel, 1, 2⟩ : CPVRChannelGroupMember).channel.dateTimeAdded =
        some added ∧
      (∀ client first,
        dateAddedEnv.GetClient
            (⟨lateAddedChannel, 1, 2⟩ : CPVRChannelGroupMember).channelClientID =
          some client →
        client.dateTimeFirstChannelsAdded = some first → first < added) :=
  pvr_C9_date_added_view dateAddedEnv ⟨false, -1, -1⟩ groupGPath
    ⟨lateAddedChannel, 1, 2⟩ true (by decide)
